import Mathlib

/-!
Verification of the mullvad/wireguard-go DAITA and MultihopTun subsystems.

This file shallowly embeds the Go source of `src/device/daita.go`,
`src/device/daita_types.go`, `src/tun/multihoptun/tun.go` and
`src/tun/multihoptun/bind.go` into Lean, and proves or refutes the
specification claims about them.

Conventions of the embedding:
* Go byte slices are `List Nat` with each element a byte value (`< 256`);
  conversions the source performs (`uint16(x)`, `uint8(x)`) appear as
  `% 65536` / `% 256` at exactly the places the source casts.
* A Go function that can panic is embedded with an explicit outcome type
  (`Option`, or an inductive with a `panicked` constructor); closing a
  closed channel and `tcpip.AddrFrom4Slice` on a slice whose length is not
  4 are panics in Go.
* Channels are embedded as explicit FIFO lists plus a closed flag;
  receiving from a closed empty channel yields the zero value and
  `ok = false`, sending on a closed channel panics (Go semantics).
-/

/-! ## Generic byte-buffer helpers (Go slice operations) -/

/-- Write the bytes `bs` into `buf` starting at offset `off`, in place
(the Go pattern `copy(buf[off:], bs)` when `off + |bs| ≤ |buf|`). -/
def listWrite (buf : List Nat) (off : Nat) (bs : List Nat) : List Nat :=
  buf.take off ++ bs ++ buf.drop (off + bs.length)

/-- Go `copy(dst, src)`: copies `min |dst| |src|` elements into the front
of `dst`, leaving the rest of `dst` unchanged. -/
def listCopy (dst src : List Nat) : List Nat :=
  let n := min dst.length src.length
  src.take n ++ dst.drop n

/-- Big-endian 16-bit read of bytes `i` and `i+1` of a buffer
(out-of-range bytes read as 0). -/
def be16at (l : List Nat) (i : Nat) : Nat :=
  256 * (l.getD i 0 % 256) + l.getD (i + 1) 0 % 256

/-- Big-endian bytes of a 16-bit value. -/
def be16bytes (v : Nat) : List Nat :=
  [v % 65536 / 256, v % 256]

/-- Subtraction of two `uint16` values with Go wrap-around semantics. -/
def uint16sub (a b : Nat) : Nat :=
  (a % 65536 + 65536 - b % 65536) % 65536

/-- One's complement of a `uint16` value (Go `^x`). -/
def complement16 (n : Nat) : Nat :=
  65535 - n % 65536

/-! ## Internet checksum (models gvisor `pkg/tcpip/checksum`) -/

/-- Fold the carries of a one's-complement accumulator until it fits in
16 bits. The fuel argument makes the recursion structural; each round
strictly shrinks an accumulator that is `≥ 2^16`, and the fuel is always
at least the accumulator, so it never runs out. -/
def foldCarryAux : Nat → Nat → Nat
  | 0, n => n % 65536
  | fuel + 1, n => if n < 65536 then n else foldCarryAux fuel (n % 65536 + n / 65536)

def foldCarry (n : Nat) : Nat := foldCarryAux n n

/-- Sum of the big-endian 16-bit words of a byte buffer; an odd trailing
byte is padded with a zero byte on the right (RFC 1071, as implemented by
gvisor `checksum.Checksum`). -/
def sumWords : List Nat → Nat
  | [] => 0
  | [b] => b % 256 * 256
  | b1 :: b2 :: rest => b1 % 256 * 256 + b2 % 256 + sumWords rest

/-- Models gvisor `checksum.Checksum(buf, initial)`: the folded
one's-complement sum of `initial` and the 16-bit words of `buf`. -/
def checksumOf (buf : List Nat) (initial : Nat) : Nat :=
  foldCarry (initial + sumWords buf)

/-- Models gvisor `checksum.Combine(a, b)`:
`uint16(v + v>>16)` for `v = uint32(a) + uint32(b)`. -/
def checksumCombine (a b : Nat) : Nat :=
  (a % 65536 + b % 65536 + (a % 65536 + b % 65536) / 65536) % 65536

/-- Models gvisor `header.PseudoHeaderChecksum(protocol, src, dst, totalLen)`:
checksum of the source address, destination address, length and protocol
fields of the pseudo-header. -/
def pseudoHeaderChecksum (protocol : Nat) (src dst : List Nat) (totalLen : Nat) : Nat :=
  let x1 := checksumOf src 0
  let x2 := checksumOf dst x1
  let x3 := checksumOf (be16bytes totalLen) x2
  checksumOf [0, protocol % 256] x3

/-! ## MultihopTun data model (src/tun/multihoptun/tun.go) -/

namespace multihoptun

/-- gvisor `header.IPv4MinimumSize`. -/
def IPv4MinimumSize : Nat := 20

/-- gvisor `header.IPv6MinimumSize`. -/
def IPv6MinimumSize : Nat := 40

/-- gvisor `header.UDPMinimumSize`. -/
def UDPMinimumSize : Nat := 8

/-- gvisor `header.UDPProtocolNumber`. -/
def UDPProtocolNumber : Nat := 17

/-- The `MultihopTun` struct. The two rendezvous channels (`readRecv`,
`writeRecv`) and the event channel carry no persistent state and are
embedded at the call sites instead; `conn.Endpoint` is abstracted as a
number; `closed` is the `atomic.Bool`, `shutdownClosed` the state of
`shutdownChan`. -/
structure MultihopTun where
  isIpv4 : Bool
  localIp : List Nat
  localPort : Nat
  remoteIp : List Nat
  remotePort : Nat
  ipConnectionId : Nat
  mtu : Nat
  endpoint : Nat
  closed : Bool
  shutdownClosed : Bool
deriving DecidableEq

/-- The `packetBatch` struct (the `completion` channel is embedded at the
call sites by returning the completed batch). -/
structure PacketBatch where
  packet : List Nat
  size : Nat
  offset : Nat
deriving DecidableEq

/-- `NewMultihopTun(local, remote, remotePort, mtu)`. A `netip.Addr` is
passed as its `Is4()` flag together with its `AsSlice()` bytes (4 bytes
for an IPv4 address, 16 for an IPv6 one); the random draw for the
connection id and the parsed remote endpoint are parameters. The source
computes `connectionId = uint16(rand.Uint32()>>16) | 1` and leaves
`localPort = 0` until `Open`. -/
def NewMultihopTun (localIs4 : Bool) (localBytes remoteBytes : List Nat)
    (remotePort mtu randVal endpoint : Nat) : MultihopTun :=
  { isIpv4 := localIs4
    localIp := localBytes
    localPort := 0
    remoteIp := remoteBytes
    remotePort := remotePort % 65536
    ipConnectionId := Nat.lor (randVal % 65536) 1
    mtu := mtu
    endpoint := endpoint
    closed := false
    shutdownClosed := false }

/-- `headerSize()`. -/
def MultihopTun.headerSize (st : MultihopTun) : Nat :=
  if st.isIpv4 then IPv4MinimumSize + UDPMinimumSize else IPv6MinimumSize + UDPMinimumSize

/-- Models gvisor `tcpip.AddrFrom4Slice(addr)`: panics (here `none`)
unless the slice is exactly 4 bytes long. -/
def AddrFrom4Slice (addr : List Nat) : Option (List Nat) :=
  if addr.length = 4 then some addr else none

/-- `writeUdpPayload(target, payload, src, dst)`: encodes the UDP header
into `target[0:8]`, copies `payload` into `target[8:]`, computes the UDP
checksum over pseudo-header, UDP header and data exactly as the source
does, complements it unless it is `0xFFFF` - and then stores `0` into
the checksum field (`target.SetChecksum(0)`), discarding the computed
value. Returns the resulting buffer together with the computed-but-unused
checksum `xsum`. -/
def writeUdpPayload (localPort remotePort : Nat) (target payload src dst : List Nat) :
    List Nat × Nat :=
  let udpLength := (payload.length + UDPMinimumSize) % 65536
  let t1 := listWrite target 0
    (be16bytes localPort ++ be16bytes remotePort ++ be16bytes udpLength ++ [0, 0])
  let t2 := t1.take 8 ++ listCopy (t1.drop 8) payload
  let xsum0 := checksumCombine
    (pseudoHeaderChecksum UDPProtocolNumber src dst udpLength)
    (checksumOf t2 0)
  let xsum1 := checksumOf (t2.take 8) xsum0
  let xsum := if xsum1 = 65535 then xsum1 else complement16 xsum1
  (listWrite t2 6 [0, 0], xsum)

/-- `writeV4Payload(target, payload)`: encodes the IPv4 header with the
fields of the source (`TOS=0`, `TotalLength=size`, `ID=connectionId`,
`TTL=64`, `Protocol=UDP`, checksum `^CalculateChecksum()`), then the UDP
header and payload into `ipv4.Payload()`. `none` models the panic of
`tcpip.AddrFrom4Slice` on an address that is not 4 bytes. -/
def writeV4Payload (st : MultihopTun) (target payload : List Nat) :
    Option (Nat × List Nat) := do
  let size := st.headerSize + payload.length
  let src ← AddrFrom4Slice st.localIp
  let dst ← AddrFrom4Slice st.remoteIp
  let tl := size % 65536
  let hdrNoCk : List Nat :=
    [0x45, 0] ++ be16bytes tl ++ be16bytes st.ipConnectionId ++ [0, 0, 64, UDPProtocolNumber, 0, 0]
      ++ src ++ dst
  let ck := complement16 (checksumOf hdrNoCk 0)
  let hdr := listWrite hdrNoCk 10 (be16bytes ck)
  let t1 := listWrite target 0 hdr
  let view := (t1.drop IPv4MinimumSize).take (uint16sub tl IPv4MinimumSize)
  let udpOut := writeUdpPayload st.localPort st.remotePort view payload src dst
  some (size, t1.take IPv4MinimumSize ++ udpOut.1 ++ t1.drop (IPv4MinimumSize + udpOut.1.length))

/-- `writeV6Payload(target, payload)`: the source converts `st.localIp`
and `st.remoteIp` with `tcpip.AddrFrom4Slice`, which panics for the
16-byte slices an IPv6 `netip.Addr` produces, so `none` is the result for
every IPv6-configured tun. The remainder (IPv6 header with
`TrafficClass=0`, `PayloadLength`, `FlowLabel=connectionId`,
`NextHeader=UDP`, `HopLimit=64`, then the UDP payload) is encoded as the
source would if the address conversion succeeded. -/
def writeV6Payload (st : MultihopTun) (target payload : List Nat) :
    Option (Nat × List Nat) := do
  let size := st.headerSize + payload.length
  let src ← AddrFrom4Slice st.localIp
  let dst ← AddrFrom4Slice st.remoteIp
  let pl := payload.length % 65536
  let fl := st.ipConnectionId % 1048576
  let pad16 := fun (a : List Nat) => (a ++ List.replicate 16 0).take 16
  let hdr : List Nat :=
    [0x60, fl / 65536 % 16] ++ [fl / 256 % 256, fl % 256] ++ be16bytes pl
      ++ [UDPProtocolNumber, 64] ++ pad16 src ++ pad16 dst
  let t1 := listWrite target 0 hdr
  let view := (t1.drop IPv6MinimumSize).take (uint16sub (pl + UDPMinimumSize) 0)
  let udpOut := writeUdpPayload st.localPort st.remotePort view payload src dst
  some (size, t1.take IPv6MinimumSize ++ udpOut.1 ++ t1.drop (IPv6MinimumSize + udpOut.1.length))

/-- Outcome of `writePayload`: success with the written size and the
mutated target buffer, the "target buffer is too small" error, or a Go
panic. -/
inductive EncodeResult where
  | ok (size : Nat) (buf : List Nat)
  | bufferTooSmall
  | panicked
deriving DecidableEq

/-- `writePayload(target, payload)`: fails with the buffer-too-small
error when `headerSize() + len(payload) > len(target)`, otherwise
dispatches on the IP version of the tun. -/
def writePayload (st : MultihopTun) (target payload : List Nat) : EncodeResult :=
  if st.headerSize + payload.length > target.length then .bufferTooSmall
  else if st.isIpv4 then
    match writeV4Payload st target payload with
    | some (size, buf) => .ok size buf
    | none => .panicked
  else
    match writeV6Payload st target payload with
    | some (size, buf) => .ok size buf
    | none => .panicked

/-- The first `size` bytes of a successfully encoded buffer (what the
paired `tun.Read` caller observes), `none` on error or panic. -/
def encodeOkDatagram : EncodeResult → Option (List Nat)
  | .ok size buf => some (buf.take size)
  | _ => none

/-! ### Bind send (src/tun/multihoptun/bind.go, `Send`) -/

/-- Outcome of the part of `multihopBind.Send` that runs after a batch
has been taken from `readRecv`: on success or encode error the batch is
completed (returned through `completion` with `size` set), the Boolean
records whether `Send` returns the encode error to its caller. -/
inductive SendOutcome where
  | delivered (completed : PacketBatch) (errored : Bool)
  | panicked
deriving DecidableEq

/-- `Send(buf, ep)` after `packetBatch, ok = <-st.readRecv` succeeded:
`targetPacket := packetBatch.packet[packetBatch.offset:]`, then
`size, err := st.writePayload(targetPacket, buf)`, `packetBatch.size =
size`, completion, `return err`. On the error path the named return
`size` is still 0. -/
def SendOnBatch (st : MultihopTun) (batch : PacketBatch) (buf : List Nat) : SendOutcome :=
  match writePayload st (batch.packet.drop batch.offset) buf with
  | .bufferTooSmall => .delivered { batch with size := 0 } true
  | .panicked => .panicked
  | .ok size out =>
      .delivered { batch with size := size, packet := batch.packet.take batch.offset ++ out } false

/-- Whether `Send` returned an error to its caller. -/
def sendErrored : SendOutcome → Bool
  | .delivered _ e => e
  | .panicked => false

/-! ### Bind receive (src/tun/multihoptun/bind.go, `Open`) -/

/-- Models gvisor `header.IPVersion(b)`: `-1` for an empty buffer,
otherwise the top nibble of the first byte. -/
def ipVersionOf : List Nat → Int
  | [] => -1
  | b :: _ => Int.ofNat (b % 256 / 16)

/-- gvisor `header.IPv4.HeaderLength()`: low nibble of byte 0 times 4. -/
def v4HeaderLength (b : List Nat) : Nat := b.getD 0 0 % 16 * 4

/-- gvisor `header.IPv4.Payload()`: the bytes after the IP header,
limited to `TotalLength - HeaderLength` (`uint16` arithmetic). -/
def v4Payload (b : List Nat) : List Nat :=
  (b.drop (v4HeaderLength b)).take (uint16sub (be16at b 2) (v4HeaderLength b))

/-- gvisor `header.IPv6.Payload()`: the bytes after the fixed 40-byte
header, limited to the `PayloadLength` field. -/
def v6Payload (b : List Nat) : List Nat :=
  (b.drop IPv6MinimumSize).take (be16at b 4)

/-- gvisor `header.UDP.Payload()`: the bytes after the 8-byte UDP header. -/
def udpPayload (u : List Nat) : List Nat := u.drop UDPMinimumSize

/-- Result of the receive function: bytes read, the (possibly written)
caller output buffer, the returned endpoint, whether an error was
returned, and the batch sent back through `completion`. -/
structure ReceiveOut where
  bytesRead : Nat
  out : List Nat
  ep : Nat
  isErr : Bool
  completed : PacketBatch
deriving DecidableEq

/-- The receive function of `Open`, after `batch, ok = <-st.writeRecv`
succeeded: demultiplex on the IP version nibble of
`batch.packet[batch.offset:]`, copy the UDP payload into the caller
buffer for versions 4 and 6, leave `bytesRead = 0` otherwise; complete
the batch with `batch.size = bytesRead`, return the fixed remote
endpoint and a nil error. -/
def receiveOnBatch (st : MultihopTun) (batch : PacketBatch) (packet : List Nat) : ReceiveOut :=
  let b := batch.packet.drop batch.offset
  let ipVersion := ipVersionOf b
  let res : Nat × List Nat :=
    if ipVersion = 4 then
      let udpPl := udpPayload (v4Payload b)
      (udpPl.length, listCopy packet udpPl)
    else if ipVersion = 6 then
      let udpPl := udpPayload (v6Payload b)
      (udpPl.length, listCopy packet udpPl)
    else (0, packet)
  { bytesRead := res.1
    out := res.2
    ep := st.endpoint
    isErr := false
    completed := { batch with size := res.1 } }

/-- `tun.Write` after publishing its batch: `packetBatch, ok := <-completion`;
a closed completion channel yields `(0, io.EOF)`, a delivered batch yields
`(packetBatch.size, nil)`. The Boolean is whether an error is returned. -/
def writeCompletionResult : Option PacketBatch → Nat × Bool
  | none => (0, true)
  | some completed => (completed.size, false)

/-! ### Close (src/tun/multihoptun/tun.go, `Close`) -/

/-- Outcome of `MultihopTun.Close`. -/
inductive CloseOutcome where
  | ok (s : MultihopTun)
  | panicked
deriving DecidableEq

/-- `Close()`: reads and sets the `closed` flag, then unconditionally
executes `close(st.shutdownChan)`. Closing a channel that is already
closed panics in Go, which is what happens on every call after the
first. -/
def MultihopTun.Close (st : MultihopTun) : CloseOutcome :=
  let st1 := if !st.closed then { st with closed := true } else st
  if st1.shutdownClosed then .panicked
  else .ok { st1 with shutdownClosed := true }

/-! ### Concrete instances used by the claim theorems -/

/-- An IPv4-configured tun: `local = 1.2.3.5`, `remote = 1.2.3.4`,
`remotePort = 5005`, MTU 1280 (the configuration of the repository's
`TestMultihopTunTrafficV4`). -/
def sampleTun4 : MultihopTun :=
  NewMultihopTun true [1, 2, 3, 5] [1, 2, 3, 4] 5005 1280 6 0

/-- An IPv6-configured tun: `local = ::1`, `remote = fc00::1` (16-byte
address slices, as `netip.Addr.AsSlice` produces for IPv6). -/
def sampleTun6 : MultihopTun :=
  NewMultihopTun false (List.replicate 15 0 ++ [1]) (0xfc :: List.replicate 14 0 ++ [1]) 5005 1280 6 0

/-- The UDP encode of claim C4 in isolation: `localPort = 1000`,
`remotePort = 5005`, a 12-byte target (8-byte UDP header + 4-byte
payload), payload `[1,2,3,4]`, IPv4 pseudo-header addresses
`1.2.3.5 → 1.2.3.4`. -/
def c4result : List Nat × Nat :=
  writeUdpPayload 1000 5005 (List.replicate 12 0) [1, 2, 3, 4] [1, 2, 3, 5] [1, 2, 3, 4]

/-- `sampleTun4` after its first `Close()`. -/
def closedTun : MultihopTun := { sampleTun4 with closed := true, shutdownClosed := true }

end multihoptun


/-! ## DAITA data model (src/device/daita.go, src/device/daita_types.go) -/

namespace device

/-! ### Association-list embedding of the Go map `machineActions` -/

/-- Go map assignment `m[k] = v`: replace the binding of `k` in place if
one exists, otherwise append a new binding. -/
def mapInsert {α : Type} : List (Nat × α) → Nat → α → List (Nat × α)
  | [], k, v => [(k, v)]
  | (k1, v1) :: rest, k, v =>
      if k1 = k then (k, v) :: rest else (k1, v1) :: mapInsert rest k v

/-- Go map lookup `m[k]`. -/
def mapLookup {α : Type} : List (Nat × α) → Nat → Option α
  | [], _ => none
  | (k1, v1) :: rest, k => if k1 = k then some v1 else mapLookup rest k

/-- Go `delete(m, k)`: removes the binding of `k`. -/
def mapDelete {α : Type} : List (Nat × α) → Nat → List (Nat × α)
  | [], _ => []
  | (k1, v1) :: rest, k => if k1 = k then rest else (k1, v1) :: mapDelete rest k

/-- The map property of a Go map: no key has two bindings. -/
def keysNodup {α : Type} (m : List (Nat × α)) : Prop :=
  (m.map Prod.fst).Nodup

/-! ### Events, actions and constants (daita_types.go, daita.go) -/

/-- Event-type discriminants of daita_types.go (must match the maybenot
engine build). -/
def NormalRecv : Nat := 0
def PaddingRecv : Nat := 1
def TunnelRecv : Nat := 2
def NormalSent : Nat := 3
def PaddingSent : Nat := 4
def TunnelSent : Nat := 5

/-- Padding-header constants of daita_types.go. -/
def DaitaHeaderLen : Nat := 4
def DaitaPaddingMarker : Nat := 0xff
def DaitaOffsetTotalLength : Nat := 2

/-- The `Event` struct. `NoisePublicKey` (a 32-byte key) is abstracted
as a number. -/
structure Event where
  Machine : Nat
  Peer : Nat
  EventType : Nat
  XmitBytes : Nat
deriving DecidableEq

/-- `ActionType` constants (`iota`: Cancel, InjectPadding, BlockOutgoing). -/
def ActionTypeCancel : Nat := 0
def ActionTypeInjectPadding : Nat := 1
def ActionTypeBlockOutgoing : Nat := 2

/-- The `Padding` payload struct. -/
structure Padding where
  ByteCount : Nat
  Replace : Bool
deriving DecidableEq

/-- The `Action` struct; `Time` is `time.Time` as nanoseconds. -/
structure Action where
  Peer : Nat
  ActionType : Nat
  Machine : Nat
  Time : Nat
  Payload : Padding
deriving DecidableEq

/-- A raw action written by `maybenot_on_event` into `newActionsBuf`
(`C.MaybenotAction`, restricted to the fields the Go code reads from the
`InjectPadding` body of the union). -/
structure RawAction where
  tag : Nat
  machine : Nat
  timeoutNanos : Nat
  size : Nat
  replace : Bool
deriving DecidableEq

/-- `maybenotActionToGo(action_c, now, peer)` for an `InjectPadding`
raw action. -/
def maybenotActionToGo (raw : RawAction) (now : Nat) (peer : Nat) : Action :=
  { Peer := peer
    ActionType := 1
    Machine := raw.machine
    Time := now + raw.timeoutNanos
    Payload := { ByteCount := raw.size % 65536, Replace := raw.replace } }

/-- `MessageTransportHeaderSize` of the wireguard-go device package
(4-byte type + 4-byte receiver index + 8-byte counter = 16). Modelled
from the spec: the constant lives outside src/, the spec calls it "the
fixed offset MessageTransportHeaderSize"; no claim depends on its value. -/
def MessageTransportHeaderSize : Nat := 16

/-- One iteration of the `for action := range daita.actions` loop of
`HandleDaitaActions`, applied to the pool buffer `elem.buffer` of the
freshly acquired outbound element (stale bytes and all) and the received
action. `none` means no packet is staged for this action (unknown action
type, or `size == 0`); `some p` is the staged `elem.packet`. The source
sets `elem.packet = elem.buffer[offset : offset+size]` with
`size = int(action.Payload.ByteCount)` and then writes only
`elem.packet[0] = 0xff`; the length field is left unwritten (source TODO). -/
def HandleDaitaActionsStep (buffer : List Nat) (action : Action) : Option (List Nat) :=
  if action.ActionType ≠ ActionTypeInjectPadding then none
  else
    let size := action.Payload.ByteCount
    if size = 0 then none
    else some (((buffer.drop MessageTransportHeaderSize).take size).set 0 0xff)

/-! ### The MaybenotDaita state and the event-handler worker -/

/-- The `MaybenotDaita` struct together with the state of its two
channels. `events`/`actions` are the channel buffers (FIFO),
`eventsClosed`/`actionsClosed` whether `close` has been called on them,
`eventsCapacity` the capacity `eventsCapacity` passed to `EnableDaita`.
The engine handle `maybenot` is abstract (type `E`); `newActionsBuf` is
scratch for the FFI call and `logger` is logging only, so both are
omitted. -/
structure MaybenotDaita (E : Type) where
  events : List Event
  eventsClosed : Bool
  eventsCapacity : Nat
  actions : List Action
  actionsClosed : Bool
  maybenot : E
  machineActions : List (Nat × Action)
deriving DecidableEq

/-- The event emitter (Go method `(daita *MaybenotDaita) Event`): builds
`Event{Peer: remoteStatic, EventType: eventType, XmitBytes:
uint16(packetLen)}` (the `Machine` field keeps its zero value) and
offers it with `select { case daita.events <- event: default: }` - the
event is appended when the bounded buffer has room and silently dropped
otherwise; nothing else (in particular not the engine handle) is
touched, and the function always returns without error. -/
def MaybenotDaita.EmitEvent {E : Type} (daita : MaybenotDaita E)
    (peerKey eventType packetLen : Nat) : MaybenotDaita E :=
  if daita.events.length < daita.eventsCapacity then
    { daita with events := daita.events ++
        [{ Machine := 0, Peer := peerKey, EventType := eventType,
           XmitBytes := packetLen % 65536 }] }
  else daita

/-- `handleEvent(event)`: drive the engine (`maybenot_on_event`), then
for every written raw action whose tag is `InjectPadding` store the
converted action in `machineActions[machine]`; other tags are logged and
skipped. Returns the new engine state and map. -/
def handleEventStep {E : Type} (onEvent : E → Event → E × List RawAction) (now : Nat)
    (engine : E) (machineActions : List (Nat × Action)) (event : Event) :
    E × List (Nat × Action) :=
  let res := onEvent engine event
  (res.1,
    res.2.foldl (fun m raw =>
      if raw.tag ≠ 1 then m
      else mapInsert m raw.machine (maybenotActionToGo raw now event.Peer)) machineActions)

/-- Which `select` case of the worker loop fires. -/
inductive SelectChoice where
  | recvEvent
  | timerFire (machine : Nat)
deriving DecidableEq

/-- Outcome of one iteration of the worker's `for` loop. `exited s`
would mean the loop was left and the deferred shutdown path
(`close(daita.actions); C.maybenot_stop(...)`) runs next; `blocked`
means the chosen case cannot fire in this state. -/
inductive StepOutcome (E : Type) where
  | next (s : MaybenotDaita E)
  | blocked
  | panicked
  | exited (s : MaybenotDaita E)
deriving DecidableEq

/-- Whether an outcome exits the loop. -/
def StepOutcome.isExited {E : Type} : StepOutcome E → Bool
  | .exited _ => true
  | _ => false

/-- One iteration of the `for` loop of `handleEvents` (the event-handler
worker), given which `select` case fires.

* `recvEvent` with a queued event: `more = true`, `handleEvent(event)`
  runs, the loop continues.
* `recvEvent` on a closed empty channel: the receive yields the zero
  `Event` and `more = false`; the source then executes `break`, which in
  Go exits only the `select` statement, not the `for` loop - so the
  iteration ends with the state unchanged and the loop runs again. The
  `for` body contains no `return` and no labelled break: no branch
  produces `.exited`.
* `timerFire m`: pops `machineActions[m]` and sends it on
  `daita.actions`; sending on a closed channel panics (the actions
  channel is closed by `Disable`). The timer can only fire for a machine
  with a pending action. The send blocking on a full buffer would only
  delay the iteration, which none of the proved properties depend on, so
  the buffer is treated as unbounded here. -/
def handleEventsStep {E : Type} (onEvent : E → Event → E × List RawAction) (now : Nat)
    (s : MaybenotDaita E) (c : SelectChoice) : StepOutcome E :=
  match c with
  | .recvEvent =>
    match s.events with
    | e :: rest =>
      let res := handleEventStep onEvent now s.maybenot s.machineActions e
      .next { s with events := rest, maybenot := res.1, machineActions := res.2 }
    | [] =>
      if s.eventsClosed then .next s
      else .blocked
  | .timerFire m =>
    match mapLookup s.machineActions m with
    | some a =>
      if s.actionsClosed then .panicked
      else .next { s with machineActions := mapDelete s.machineActions m,
                          actions := s.actions ++ [a] }
    | none => .blocked

/-- The states of the DAITA pipeline reachable from `EnableDaita`:
the worker starts with an empty `machineActions` map; thereafter the
worker loop iterates, emitters offer events, and `Disable` closes the
actions channel and then the events channel. -/
inductive WReach {E : Type} (onEvent : E → Event → E × List RawAction) :
    MaybenotDaita E → Prop where
  | init (cap : Nat) (engine : E) (q : List Event) :
      WReach onEvent
        { events := q, eventsClosed := false, eventsCapacity := cap,
          actions := [], actionsClosed := false, maybenot := engine, machineActions := [] }
  | worker {s sNext : MaybenotDaita E} (now : Nat) (c : SelectChoice) :
      WReach onEvent s → handleEventsStep onEvent now s c = .next sNext →
      WReach onEvent sNext
  | emit {s : MaybenotDaita E} (peerKey eventType packetLen : Nat) :
      WReach onEvent s → WReach onEvent (s.EmitEvent peerKey eventType packetLen)
  | disable {s : MaybenotDaita E} :
      WReach onEvent s →
      WReach onEvent { s with actionsClosed := true, eventsClosed := true }

/-! ### Concrete DAITA states used by witnesses -/

/-- A `MaybenotDaita` with a full (capacity 0) events buffer. -/
def fullDaita : MaybenotDaita Unit :=
  { events := [], eventsClosed := false, eventsCapacity := 0,
    actions := [], actionsClosed := false, maybenot := (), machineActions := [] }

/-- A `MaybenotDaita` with room in its events buffer. -/
def roomDaita : MaybenotDaita Unit :=
  { fullDaita with eventsCapacity := 4 }

/-- A worker state whose events channel has been closed and drained. -/
def drainedDaita : MaybenotDaita Unit :=
  { fullDaita with eventsClosed := true, actionsClosed := true }

/-- An engine model that never produces actions, for witnesses. -/
def nullEngine : Unit → Event → Unit × List RawAction :=
  fun u _ => (u, [])

/-- An `InjectPadding` action with `ByteCount = 100` (the spec's concrete
padding-header scenario). -/
def padAction100 : Action :=
  { Peer := 0, ActionType := 1, Machine := 0, Time := 0,
    Payload := { ByteCount := 100, Replace := false } }

end device

/-! ## Theorems: MultihopTun claims -/

namespace multihoptun

/-- C3: the claim says encoding any payload into an IP+UDP datagram and
stripping the headers again yields the payload, for both the IPv4 and
the IPv6 configuration. The IPv4 configuration does round-trip (second
conjunct, at the test scenario's addresses), but on the IPv6
configuration `writeV6Payload` passes the 16-byte addresses to
`tcpip.AddrFrom4Slice`, which panics for every slice that is not 4 bytes
long - so no IPv6 datagram is ever encoded (first conjunct). -/
theorem C3_roundtrip_v4_ok_v6_panics :
    writePayload sampleTun6 (List.replicate 52 0) [1, 2, 3, 4] = .panicked
    ∧ (encodeOkDatagram (writePayload sampleTun4 (List.replicate 32 0) [1, 2, 3, 4])).map
        (fun d => udpPayload (v4Payload d)) = some [1, 2, 3, 4] := by decide

/-- C4: the claim says the stored UDP checksum equals the computed
one's-complement checksum and is never zero on the IPv6 path. The source
computes that checksum (`c4result.2`, nonzero here) but then executes
`target.SetChecksum(0)`, so the checksum field (bytes 6..8 of the UDP
header) stores `0` - on the IPv6 path just as on the IPv4 path. -/
theorem C4_udp_checksum_stored_zero :
    be16at c4result.1 6 = 0 ∧ c4result.2 ≠ 0 ∧ be16at c4result.1 6 ≠ c4result.2 := by decide

/-- C5: the claim says `Close` may be called any number of times. The
first call succeeds, but `Close` runs `close(st.shutdownChan)`
unconditionally, and closing an already-closed channel panics in Go, so
the second call panics. -/
theorem C5_second_close_panics :
    MultihopTun.Close sampleTun4 = .ok closedTun
    ∧ MultihopTun.Close closedTun = .panicked := by decide

/-- C9: `writePayload` returns the insufficient-buffer error exactly when
the target is shorter than `headerSize() + len(payload)`, the header size
is 28 bytes for IPv4 and 48 for IPv6, and `Send` hands exactly that error
back to its caller after completing the batch. -/
theorem C9_encode_error_iff_buffer_too_small (st : MultihopTun)
    (target payload : List Nat) (batch : PacketBatch) (buf : List Nat) :
    (writePayload st target payload = .bufferTooSmall
      ↔ target.length < st.headerSize + payload.length)
    ∧ st.headerSize = (if st.isIpv4 then 28 else 48)
    ∧ (sendErrored (SendOnBatch st batch buf) = true
      ↔ writePayload st (batch.packet.drop batch.offset) buf = .bufferTooSmall) := by
  refine ⟨⟨fun heq => ?_, fun hlt => ?_⟩, ?_, ?_⟩
  · by_contra hlt
    unfold writePayload at heq
    rw [if_neg (by omega)] at heq
    split at heq <;> split at heq <;> simp at heq
  · unfold writePayload
    rw [if_pos (by omega)]
  · unfold MultihopTun.headerSize IPv4MinimumSize IPv6MinimumSize UDPMinimumSize
    split <;> rfl
  · cases hv : writePayload st (batch.packet.drop batch.offset) buf <;>
      simp [SendOnBatch, sendErrored, hv]

/-- C10: when the obtained batch's first byte has an IP-version nibble
that is neither 4 nor 6, the receive function returns 0 bytes read, the
fixed remote endpoint and no error, leaves the caller buffer untouched,
completes the batch with size 0, and the paired `tun.Write` therefore
returns `(0, nil)`. -/
theorem C10_unknown_version_reads_zero (st : MultihopTun) (batch : PacketBatch)
    (packet : List Nat)
    (h4 : ipVersionOf (batch.packet.drop batch.offset) ≠ 4)
    (h6 : ipVersionOf (batch.packet.drop batch.offset) ≠ 6) :
    receiveOnBatch st batch packet
      = { bytesRead := 0, out := packet, ep := st.endpoint, isErr := false,
          completed := { batch with size := 0 } }
    ∧ writeCompletionResult (some { batch with size := 0 }) = (0, false) := by
  refine ⟨?_, rfl⟩
  unfold receiveOnBatch
  simp [h4, h6]

/-- Witness for C10 at a concrete batch: a packet whose first byte is the
DAITA padding marker `0xFF` (version nibble 15). -/
theorem C10_witness :
    receiveOnBatch sampleTun4 ⟨[255], 0, 0⟩ [9, 9]
      = { bytesRead := 0, out := [9, 9], ep := 0, isErr := false,
          completed := { packet := [255], size := 0, offset := 0 } }
    ∧ writeCompletionResult (some { packet := [255], size := 0, offset := 0 }) = (0, false) :=
  C10_unknown_version_reads_zero sampleTun4 ⟨[255], 0, 0⟩ [9, 9] (by decide) (by decide)

end multihoptun

/-! ## Theorems: DAITA claims -/

namespace device

/-- Keys of `mapInsert m k v` are the keys of `m` plus `k`. -/
theorem mem_keys_mapInsert {α : Type} (m : List (Nat × α)) (k : Nat) (v : α) (a : Nat) :
    a ∈ (mapInsert m k v).map Prod.fst ↔ a ∈ m.map Prod.fst ∨ a = k := by
  induction m with
  | nil => simp [mapInsert]
  | cons hd tl ih =>
    obtain ⟨k1, v1⟩ := hd
    by_cases h : k1 = k
    · subst h
      simp [mapInsert]
      tauto
    · simp [mapInsert, h, ih]
      tauto

/-- Go map assignment preserves the no-duplicate-keys property. -/
theorem keysNodup_mapInsert {α : Type} {m : List (Nat × α)} (k : Nat) (v : α)
    (h : keysNodup m) : keysNodup (mapInsert m k v) := by
  induction m with
  | nil => simp [mapInsert, keysNodup]
  | cons hd tl ih =>
    obtain ⟨k1, v1⟩ := hd
    simp only [keysNodup, List.map_cons, List.nodup_cons] at h
    by_cases hk : k1 = k
    · subst hk
      simpa [mapInsert, keysNodup, List.nodup_cons] using h
    · simp only [mapInsert, if_neg hk, keysNodup, List.map_cons, List.nodup_cons]
      refine ⟨fun hmem => ?_, ih h.2⟩
      rcases (mem_keys_mapInsert tl k v k1).1 hmem with h1 | h1
      · exact h.1 h1
      · exact hk h1

/-- The keys of `mapDelete m k` form a sublist of the keys of `m`. -/
theorem keys_mapDelete_sublist {α : Type} (m : List (Nat × α)) (k : Nat) :
    ((mapDelete m k).map Prod.fst).Sublist (m.map Prod.fst) := by
  induction m with
  | nil => simp [mapDelete]
  | cons hd tl ih =>
    obtain ⟨k1, v1⟩ := hd
    by_cases hk : k1 = k
    · simp [mapDelete, hk]
    · simpa [mapDelete, hk] using ih.cons₂ k1

/-- Go `delete` preserves the no-duplicate-keys property. -/
theorem keysNodup_mapDelete {α : Type} {m : List (Nat × α)} (k : Nat)
    (h : keysNodup m) : keysNodup (mapDelete m k) :=
  List.Nodup.sublist (keys_mapDelete_sublist m k) h

/-- After `m[k] = v`, looking up `k` yields `v`. -/
theorem mapLookup_mapInsert_self {α : Type} (m : List (Nat × α)) (k : Nat) (v : α) :
    mapLookup (mapInsert m k v) k = some v := by
  induction m with
  | nil => simp [mapInsert, mapLookup]
  | cons hd tl ih =>
    obtain ⟨k1, v1⟩ := hd
    by_cases hk : k1 = k <;> simp [mapInsert, mapLookup, hk, ih]

/-- A fold whose step preserves the no-duplicate-keys property preserves
it overall. -/
theorem keysNodup_foldl {α β : Type} (f : List (Nat × α) → β → List (Nat × α))
    (hf : ∀ m b, keysNodup m → keysNodup (f m b)) :
    ∀ (l : List β) (m : List (Nat × α)), keysNodup m → keysNodup (l.foldl f m)
  | [], _, h => h
  | b :: l, m, h => keysNodup_foldl f hf l (f m b) (hf m b h)

/-- `handleEvent` preserves the no-duplicate-keys property of
`machineActions`. -/
theorem keysNodup_handleEventStep {E : Type} (onEvent : E → Event → E × List RawAction)
    (now : Nat) (engine : E) (m : List (Nat × Action)) (e : Event)
    (h : keysNodup m) : keysNodup (handleEventStep onEvent now engine m e).2 := by
  unfold handleEventStep
  refine keysNodup_foldl _ (fun m1 raw h1 => ?_) _ m h
  by_cases ht : raw.tag ≠ 1
  · simpa [ht] using h1
  · simpa [ht] using keysNodup_mapInsert raw.machine (maybenotActionToGo raw now e.Peer) h1

/-- One worker iteration that continues the loop preserves the
no-duplicate-keys property of `machineActions`. -/
theorem keysNodup_handleEventsStep {E : Type} (onEvent : E → Event → E × List RawAction)
    (now : Nat) {s sNext : MaybenotDaita E} (c : SelectChoice)
    (hstep : handleEventsStep onEvent now s c = .next sNext)
    (h : keysNodup s.machineActions) : keysNodup sNext.machineActions := by
  cases c with
  | recvEvent =>
    cases hevs : s.events with
    | cons e rest =>
      simp only [handleEventsStep, hevs] at hstep
      cases hstep
      exact keysNodup_handleEventStep onEvent now s.maybenot s.machineActions e h
    | nil =>
      simp only [handleEventsStep, hevs] at hstep
      by_cases hc : s.eventsClosed
      · rw [if_pos hc] at hstep
        cases hstep
        exact h
      · rw [if_neg hc] at hstep
        cases hstep
  | timerFire mid =>
    cases hl : mapLookup s.machineActions mid with
    | some a =>
      simp only [handleEventsStep, hl] at hstep
      by_cases hc : s.actionsClosed
      · rw [if_pos hc] at hstep
        cases hstep
      · rw [if_neg hc] at hstep
        cases hstep
        exact keysNodup_mapDelete mid h
    | none =>
      simp only [handleEventsStep, hl] at hstep
      cases hstep

/-- C1: the claim says every staged padding packet starts
`0xFF, 0x00, length-hi, length-lo` with total length at least 4. The
action handler writes only `packet[0] = 0xff` (the length field is a
TODO in the source); staged from a zero-filled pool buffer, the packet
of an `InjectPadding` action with `ByteCount = 100` has bytes 2..4 equal
to 0 as a big-endian u16, which is not its total length 100. -/
theorem C1_padding_header_not_written :
    HandleDaitaActionsStep (List.replicate 2048 0) padAction100
      = some (((List.replicate 2048 0).drop 16).take 100 |>.set 0 255)
    ∧ ((HandleDaitaActionsStep (List.replicate 2048 0) padAction100).map
        (fun p => (p.length, p.getD 0 0, p.getD 1 0, be16at p 2))
      = some (100, 255, 0, 0))
    ∧ (0 : Nat) ≠ 100 := by decide

/-- C2: the claim says the staged packet size is `byte_count + 4`, so 104
for `byte_count = 100`. The source sets `size = int(action.Payload.ByteCount)`
with no header addition (and has no `constantPacketSize` configuration at
all), so the staged packet has exactly 100 bytes. -/
theorem C2_staged_size_is_bytecount :
    (HandleDaitaActionsStep (List.replicate 2048 0) padAction100).map List.length = some 100
    ∧ (100 : Nat) ≠ padAction100.Payload.ByteCount + 4 := by decide

/-- C6: the claim says that closing the events channel terminates the
worker loop, which then closes the actions channel and stops the engine.
In the source, `break` inside the `select` exits only the `select`
statement and the `for` body has no other exit, so no iteration ever
leaves the loop (first conjunct: no outcome is `exited`, hence the
deferred `close(daita.actions)` / `maybenot_stop` shutdown path is
unreachable); with the events channel closed and drained, the receive
case fires immediately with `more = false` and leaves the state
unchanged, so the worker spins forever (second conjunct). -/
theorem C6_worker_never_runs_shutdown {E : Type}
    (onEvent : E → Event → E × List RawAction) (now : Nat) :
    (∀ (s : MaybenotDaita E) (c : SelectChoice),
        (handleEventsStep onEvent now s c).isExited = false)
    ∧ (∀ s : MaybenotDaita E, s.eventsClosed = true → s.events = [] →
        handleEventsStep onEvent now s .recvEvent = .next s) := by
  constructor
  · intro s c
    cases c with
    | recvEvent =>
      cases hevs : s.events with
      | cons e rest => simp [handleEventsStep, hevs, StepOutcome.isExited]
      | nil =>
        simp only [handleEventsStep, hevs]
        split <;> rfl
    | timerFire mid =>
      cases hl : mapLookup s.machineActions mid with
      | some a =>
        simp only [handleEventsStep, hl]
        split <;> rfl
      | none => simp [handleEventsStep, hl, StepOutcome.isExited]
  · intro s h1 h2
    simp [handleEventsStep, h2, h1]

/-- Witness for C6: on a concrete drained worker state the iteration
continues with the state unchanged and does not exit the loop. -/
theorem C6_witness :
    (handleEventsStep nullEngine 0 drainedDaita .recvEvent).isExited = false
    ∧ handleEventsStep nullEngine 0 drainedDaita .recvEvent = .next drainedDaita :=
  ⟨(C6_worker_never_runs_shutdown nullEngine 0).1 drainedDaita .recvEvent,
   (C6_worker_never_runs_shutdown nullEngine 0).2 drainedDaita rfl rfl⟩

/-- C7: at every reachable state of the event-handler pipeline the
pending-action map holds at most one entry per machine id (its keys have
no duplicates), and storing a new `InjectPadding` action for a machine
replaces the prior binding (the subsequent lookup yields the new
action). -/
theorem C7_at_most_one_pending_action_per_machine {E : Type}
    (onEvent : E → Event → E × List RawAction) :
    (∀ s : MaybenotDaita E, WReach onEvent s → keysNodup s.machineActions)
    ∧ (∀ (m : List (Nat × Action)) (k : Nat) (v : Action),
        mapLookup (mapInsert m k v) k = some v) := by
  constructor
  · intro s hs
    induction hs with
    | init cap engine q => simp [keysNodup]
    | worker now c _ hstep ih => exact keysNodup_handleEventsStep onEvent now c hstep ih
    | emit peerKey eventType packetLen _ ih =>
      unfold MaybenotDaita.EmitEvent
      split
      · exact ih
      · exact ih
    | disable _ ih => exact ih
  · exact fun m k v => mapLookup_mapInsert_self m k v

/-- Witness for C7: the initial worker state is reachable and its map
has no duplicate keys; inserting a concrete action for machine 7 into an
empty map makes lookup of 7 yield it. -/
theorem C7_witness :
    keysNodup
      (({ events := [], eventsClosed := false, eventsCapacity := 1, actions := [],
          actionsClosed := false, maybenot := (), machineActions := [] } :
        MaybenotDaita Unit)).machineActions
    ∧ mapLookup (mapInsert ([] : List (Nat × Action)) 7 (maybenotActionToGo ⟨1, 7, 50, 64, false⟩ 0 1)) 7
      = some (maybenotActionToGo ⟨1, 7, 50, 64, false⟩ 0 1) :=
  ⟨(C7_at_most_one_pending_action_per_machine nullEngine).1 _ (WReach.init 1 () []),
   (C7_at_most_one_pending_action_per_machine nullEngine).2 [] 7 _⟩

/-- C8: when the bounded events buffer is full the emitter returns with
the whole state (buffer and engine handle alike) unchanged - the
`select` takes its `default` branch, so nothing blocks and no error is
produced; when the buffer has room, the constructed event (peer key,
event type, `xmit_bytes = uint16(packetLen)`) is appended, and the
engine handle and pending-action map are untouched. -/
theorem C8_emitter_drop_safety {E : Type} (daita : MaybenotDaita E)
    (peerKey eventType packetLen : Nat) :
    (daita.events.length ≥ daita.eventsCapacity →
        daita.EmitEvent peerKey eventType packetLen = daita)
    ∧ (daita.events.length < daita.eventsCapacity →
        (daita.EmitEvent peerKey eventType packetLen).events
          = daita.events ++
              [{ Machine := 0, Peer := peerKey, EventType := eventType,
                 XmitBytes := packetLen % 65536 }]
        ∧ (daita.EmitEvent peerKey eventType packetLen).maybenot = daita.maybenot
        ∧ (daita.EmitEvent peerKey eventType packetLen).machineActions
            = daita.machineActions) := by
  constructor
  · intro h
    unfold MaybenotDaita.EmitEvent
    rw [if_neg (by omega)]
  · intro h
    unfold MaybenotDaita.EmitEvent
    rw [if_pos h]
    exact ⟨rfl, rfl, rfl⟩

/-- Witness for C8: a full buffer (capacity 0) drops the event and
leaves the state unchanged; a buffer with room appends the constructed
event. -/
theorem C8_witness :
    MaybenotDaita.EmitEvent fullDaita 1 3 100 = fullDaita
    ∧ (MaybenotDaita.EmitEvent roomDaita 1 3 100).events
        = roomDaita.events ++ [{ Machine := 0, Peer := 1, EventType := 3, XmitBytes := 100 }] :=
  ⟨(C8_emitter_drop_safety fullDaita 1 3 100).1 (by decide),
   ((C8_emitter_drop_safety roomDaita 1 3 100).2 (by decide)).1⟩

end device
